import Mathlib

set_option maxRecDepth 20000

/-!
# CombinedMemory-v2-SSE — shallow embedding of the persistence-and-search core

This file embeds the core of `src/index.ts` (class `CombinedMemoryServer`):
the write path `addMemory`, the search path `searchMemories`, the Redis
(DragonflyDB) Primary Store they talk to, and the in-process Fallback Store
`memories`.  The network transport, authentication hook and health endpoint
are external collaborators and are not modelled.

Modelling conventions:

* **Strings** are Lean `String`s; `String#toLowerCase` is modelled
  character-wise (ASCII case folding, which agrees with JS on the ASCII
  range), `String#includes` as substring containment, `String#substring`
  as drop/take on the character list.
* **Redis** is a pair of association lists: the string keyspace
  (`memory:<userId>:<id>` ↦ serialized record) and the set keyspace
  (`search:<userId>` ↦ members in insertion order; `SADD` appends a member
  not already present, `SMEMBERS` returns the list).
* **Serialized records**: `JSON.stringify` of a well-formed memory record
  is `SerializedRecord.ser`; any other stored string — one on which
  `JSON.parse` throws, or which parses to a value without the expected
  fields (so that the subsequent field accesses throw) — is
  `SerializedRecord.junk`.  `jsonParse` models the
  `JSON.parse` + `new Date(timestamp)` step of the search scan.
* **Failures**: every Redis command (`set`, `sadd`, `smembers`, `get`) may
  throw (connectivity, timeout).  A call's fate is driven by an explicit
  fault schedule `List Bool`, consumed one entry per Redis command
  (`true` = the command throws; an exhausted schedule means no further
  faults).  The `try`/`catch` blocks of the source become case splits on
  the consumed entry.
* **Timestamps**: `Date` values are their UTC epoch-millisecond value
  (`Nat`); `toISOString().split('T')[0]` is computed by the standard
  Gregorian civil-from-days conversion.
* **Random ids**: `Math.random().toString(36).substring(2, 15)` is driven
  by the sequence of base-36 fraction digits that
  `Number.prototype.toString(36)` prints for the drawn value (a minimal
  expansion: no trailing zeros, empty for `0`), passed in as an oracle
  `List (Fin 36)`.
-/

/-- A stored memory (interface `Memory` of the source); `timestamp` is the
`Date` as UTC epoch milliseconds. -/
structure Memory where
  id : String
  content : String
  userId : String
  timestamp : Nat
deriving DecidableEq, Repr

/-- A value of the Redis string keyspace.  `ser` is the image of
`JSON.stringify({id, content, userId, timestamp: ISO})`; `junk` is any other
stored string, on which the parse step of the search scan throws. -/
inductive SerializedRecord where
  | ser (id content userId : String) (timestampMs : Nat)
  | junk (raw : String)
deriving DecidableEq, Repr

/-- `JSON.parse(memoryData)` followed by `memory.timestamp = new
Date(memory.timestamp)`: succeeds exactly on well-formed serialized
records, throws otherwise. -/
def jsonParse : SerializedRecord → Except String Memory
  | .ser i c u t => .ok { id := i, content := c, userId := u, timestamp := t }
  | .junk raw => .error raw

/-- The Redis connection's visible state: string keyspace and set keyspace. -/
structure Redis where
  kv : List (String × SerializedRecord)
  sets : List (String × List String)
deriving DecidableEq, Repr

/-- The server's mutable state: the Redis Primary Store and the in-process
Fallback Store `this.memories`. -/
structure ServerState where
  redis : Redis
  memories : List Memory
deriving DecidableEq, Repr

/-- The state of a freshly constructed `CombinedMemoryServer` (empty
backend, empty fallback array). -/
def initialState : ServerState := { redis := { kv := [], sets := [] }, memories := [] }

/-- Association-list update: `redis.set key value` semantics on the string
keyspace (overwrite if present, append otherwise). -/
def assocSet {V : Type} : List (String × V) → String → V → List (String × V)
  | [], k, v => [(k, v)]
  | (k', v') :: rest, k, v =>
    if k' = k then (k, v) :: rest else (k', v') :: assocSet rest k v

/-- Association-list lookup: `redis.get key` semantics (`none` is Redis's
null reply for an absent key). -/
def assocLookup {V : Type} : List (String × V) → String → Option V
  | [], _ => none
  | (k', v') :: rest, k => if k' = k then some v' else assocLookup rest k

/-- `redis.sadd key member`: append `member` to the set at `key` unless it
is already a member (sets are kept in insertion order). -/
def saddList (sets : List (String × List String)) (k member : String) :
    List (String × List String) :=
  let cur := (assocLookup sets k).getD []
  if member ∈ cur then sets else assocSet sets k (cur ++ [member])

/-- `redis.smembers key` (an absent set key is the empty set). -/
def smembersList (sets : List (String × List String)) (k : String) : List String :=
  (assocLookup sets k).getD []

/-- Consume one entry of the fault schedule; an exhausted schedule yields
no fault. -/
def nextFault : List Bool → Bool × List Bool
  | [] => (false, [])
  | b :: bs => (b, bs)

/-- `String#toLowerCase` (ASCII case folding, as JS on the ASCII range). -/
def jsToLower (s : String) : String := ⟨s.data.map Char.toLower⟩

/-- `hay.includes(needle)`: substring containment. -/
def jsIncludes (hay needle : String) : Bool := decide (needle.data <:+: hay.data)

/-- `s.substring(start, stop)` (for `start ≤ stop`, as in all call sites). -/
def jsSubstring (s : String) (start stop : Nat) : String :=
  ⟨(s.data.drop start).take (stop - start)⟩

/-- The base-36 digit alphabet used by `Number.prototype.toString(36)`. -/
def base36Char (d : Fin 36) : Char := "0123456789abcdefghijklmnopqrstuvwxyz".data.getD d.val '0'

/-- `Math.random().toString(36)` for a drawn value whose printed base-36
fraction digits are `digits` (the engine prints `0.` followed by a minimal
digit expansion; for the value `0` it prints just `"0"`, which makes no
difference after `substring(2, 15)`). -/
def jsRandomToString36 (digits : List (Fin 36)) : String :=
  ⟨'0' :: '.' :: digits.map base36Char⟩

/-- `Math.random().toString(36).substring(2, 15)`: the id generator of
`addMemory`, driven by the digit oracle. -/
def genId (digits : List (Fin 36)) : String :=
  jsSubstring (jsRandomToString36 digits) 2 15

/-- The default owner substituted by `z.string().default("quinn_may")`. -/
def defaultUserId : String := "quinn_may"

/-- Zod's `.default`: the default value is substituted only when the field
is absent (`undefined`); any provided string, including the empty string,
is kept as-is. -/
def zodDefault : Option String → String
  | none => defaultUserId
  | some u => u

/-- The Redis string key `memory:<userId>:<id>`. -/
def memKey (userId id : String) : String := "memory:" ++ userId ++ ":" ++ id

/-- The Redis set key `search:<userId>`. -/
def searchKey (userId : String) : String := "search:" ++ userId

/-- The member list of the user's index set, `redis.smembers('search:' + userId)`. -/
def smembersOf (r : Redis) (userId : String) : List String :=
  smembersList r.sets (searchKey userId)

/-- Arguments of the `add-memory` tool after transport decoding; `userId =
none` models an absent field (so that zod substitutes the default). -/
structure AddArgs where
  content : String
  userId : Option String
deriving DecidableEq, Repr

/-- Arguments of the `search-memories` tool. -/
structure SearchArgs where
  query : String
  userId : Option String
deriving DecidableEq, Repr

/-- `addMemory` (source lines 92–136).  `randDigits` drives the id
generator and `now` is `new Date()` in epoch ms.  Returns the new server
state, the remaining fault schedule, and the confirmation text.  The first
schedule entry is consumed by `redis.set`, the second (when reached) by
`redis.sadd`; a throw of either lands in the `catch`, which appends the
memory to the in-process fallback array. -/
def addMemory (st : ServerState) (faults : List Bool) (args : AddArgs)
    (randDigits : List (Fin 36)) (now : Nat) : ServerState × List Bool × String :=
  let userId := zodDefault args.userId
  let content := args.content
  let memory : Memory :=
    { id := genId randDigits, content := content, userId := userId, timestamp := now }
  let response := "Memory added successfully for user " ++ userId ++ ": \"" ++
    jsSubstring content 0 100 ++ (if 100 < content.length then "..." else "") ++ "\""
  let memoryKey := memKey userId memory.id
  let memoryData := SerializedRecord.ser memory.id memory.content memory.userId memory.timestamp
  let nf1 := nextFault faults
  if nf1.1 then
    ({ st with memories := st.memories ++ [memory] }, nf1.2, response)
  else
    let st1 : ServerState :=
      { st with redis := { st.redis with kv := assocSet st.redis.kv memoryKey memoryData } }
    let nf2 := nextFault nf1.2
    if nf2.1 then
      ({ st1 with memories := st1.memories ++ [memory] }, nf2.2, response)
    else
      ({ st1 with
          redis := { st1.redis with sets := saddList st1.redis.sets (searchKey userId) memory.id } },
        nf2.2, response)

/-- The primary-path scan of `searchMemories` (source lines 153–166): for
each id of the index set, `redis.get` the record (one schedule entry per
`get`; a throw aborts the whole scan), skip an absent record, `JSON.parse`
it (a throw likewise aborts the scan), and collect it when the lowercased
content contains the lowercased query.  `none` signals a thrown exception
(to be caught by the enclosing `catch`). -/
def scanIds (r : Redis) (userId queryLower : String) :
    List String → List Bool → List Memory → Option (List Memory) × List Bool
  | [], faults, acc => (some acc, faults)
  | memoryId :: rest, faults, acc =>
    let nf := nextFault faults
    if nf.1 then (none, nf.2)
    else
      match assocLookup r.kv (memKey userId memoryId) with
      | none => scanIds r userId queryLower rest nf.2 acc
      | some memoryData =>
        match jsonParse memoryData with
        | .error _ => (none, nf.2)
        | .ok memory =>
          if jsIncludes (jsToLower memory.content) queryLower then
            scanIds r userId queryLower rest nf.2 (acc ++ [memory])
          else
            scanIds r userId queryLower rest nf.2 acc

/-- The fallback-path filter of `searchMemories` (source lines 172–176):
the in-process array restricted to the exact `userId` and the
case-insensitive substring test. -/
def fallbackFilter (memories : List Memory) (userId queryLower : String) : List Memory :=
  memories.filter fun memory =>
    memory.userId == userId && jsIncludes (jsToLower memory.content) queryLower

/-- Match collection of `searchMemories` (the `try`/`catch` of source lines
148–177): attempt `smembers` (first schedule entry) and the scan; any throw
is caught and the fallback filter serves the call instead. -/
def collectMatches (st : ServerState) (faults : List Bool) (queryLower userId : String) :
    List Memory × List Bool :=
  let nf := nextFault faults
  if nf.1 then (fallbackFilter st.memories userId queryLower, nf.2)
  else
    let sc := scanIds st.redis userId queryLower (smembersOf st.redis userId) nf.2 []
    match sc.1 with
    | some ms => (ms, sc.2)
    | none => (fallbackFilter st.memories userId queryLower, sc.2)

/-- The sort comparator `(a, b) => b.timestamp.getTime() - a.timestamp.getTime()`
as the total preorder it induces: `a` may precede `b` iff the comparator
is ≤ 0 there, i.e. iff `b.timestamp ≤ a.timestamp`. -/
def tsDesc (a b : Memory) : Prop := b.timestamp ≤ a.timestamp

instance : DecidableRel tsDesc := fun a b =>
  inferInstanceAs (Decidable (b.timestamp ≤ a.timestamp))

instance : IsTotal Memory tsDesc := ⟨fun a b => Nat.le_total b.timestamp a.timestamp⟩

instance : IsTrans Memory tsDesc := ⟨fun _ _ _ hab hbc => Nat.le_trans hbc hab⟩

/-- `matchingMemories.sort(...)` — `Array.prototype.sort` is a stable sort,
and a stable sort under a total preorder has a unique result, here computed
by the (stable) insertion sort under the comparator's preorder. -/
def sortMatches (l : List Memory) : List Memory := l.insertionSort tsDesc

/-- Render `timestamp.toISOString().split('T')[0]`: the date-only part
`YYYY-MM-DD` of the UTC ISO string of the epoch-ms value. -/
def pad2 (n : Nat) : String := if n < 10 then "0" ++ toString n else toString n

/-- Zero-pad a year to four digits (years of this model are ≥ 1970). -/
def pad4 (n : Nat) : String :=
  if n < 10 then "000" ++ toString n
  else if n < 100 then "00" ++ toString n
  else if n < 1000 then "0" ++ toString n
  else toString n

/-- Proleptic-Gregorian civil date `(y, m, d)` of a day count since
1970-01-01 (the standard era-based conversion used by every `Date`
implementation for `toISOString`). -/
def civilFromDays (z0 : Nat) : Nat × Nat × Nat :=
  let z := z0 + 719468
  let era := z / 146097
  let doe := z % 146097
  let yoe := (doe - doe / 1460 + doe / 36524 - doe / 146096) / 365
  let y := yoe + era * 400
  let doy := doe - (365 * yoe + yoe / 4 - yoe / 100)
  let mp := (5 * doy + 2) / 153
  let d := doy - (153 * mp + 2) / 5 + 1
  let m := if mp < 10 then mp + 3 else mp - 9
  (if m ≤ 2 then y + 1 else y, m, d)

/-- `new Date(ms).toISOString().split('T')[0]`. -/
def isoDateOnly (ms : Nat) : String :=
  let c := civilFromDays (ms / 86400000)
  pad4 c.1 ++ "-" ++ pad2 c.2.1 ++ "-" ++ pad2 c.2.2

/-- `Array.prototype.join(sep)`. -/
def jsJoin (sep : String) : List String → String
  | [] => ""
  | [x] => x
  | x :: y :: rest => x ++ sep ++ jsJoin sep (y :: rest)

/-- The `.map((memory, index) => ...)` rendering of the digest lines
(source lines 194–196), carrying the running 0-based index. -/
def renderFrom : Nat → List Memory → List String
  | _, [] => []
  | index, memory :: rest =>
    (toString (index + 1) ++ ". [" ++ isoDateOnly memory.timestamp ++ "] " ++ memory.content)
      :: renderFrom (index + 1) rest

/-- Result formatting of `searchMemories` (source lines 179–204): stable
sort by timestamp descending, the fixed no-match message on an empty match
list, otherwise the header with the full match count over the top-10
rendered lines joined by blank lines. -/
def formatSearch (query : String) (matchingMemories : List Memory) : String :=
  let matchingMemories := sortMatches matchingMemories
  if matchingMemories.length == 0 then
    "No memories found for query: \"" ++ query ++ "\""
  else
    let resultsText := jsJoin "\n\n" (renderFrom 0 (matchingMemories.take 10))
    "Found " ++ toString matchingMemories.length ++ " matching memories for \"" ++
      query ++ "\":\n\n" ++ resultsText

/-- `searchMemories` (source lines 138–205).  The method performs no write
to either store: the fallback path's `filter` and the primary path's pushes
build fresh arrays, and the in-place `sort` acts on those local arrays, so
the server state comes back unchanged. -/
def searchMemories (st : ServerState) (faults : List Bool) (args : SearchArgs) :
    ServerState × List Bool × String :=
  let userId := zodDefault args.userId
  let queryLower := jsToLower args.query
  let mf := collectMatches st faults queryLower userId
  (st, mf.2, formatSearch args.query mf.1)

/-- States reachable through the public contract from a fresh server, under
arbitrary fault schedules, inputs, clock values and id-generator draws. -/
inductive Reachable : ServerState → Prop where
  | init : Reachable initialState
  | add {st} (faults args randDigits now) :
      Reachable st → Reachable (addMemory st faults args randDigits now).1
  | search {st} (faults args) :
      Reachable st → Reachable (searchMemories st faults args).1

/-- Ten same-timestamp "tea…" memories for user u1, written through the
public add-memory operation under forced Primary Store failure. -/
def c1Prior : ServerState :=
  (List.range 10).foldl
    (fun s k => (addMemory s [true] ⟨"tea" ++ toString k, some "u1"⟩ [1] 5).1) initialState

/-- A Primary Store state holding, for user u1, one stored record that fails
to deserialize (id "aaa") ahead of one well-formed matching record (id
"bbb"), with a distinct matching memory sitting in the Fallback Store. -/
def c2State : ServerState :=
  { redis :=
      { kv := [(memKey "u1" "aaa", .junk "not json"),
               (memKey "u1" "bbb", .ser "bbb" "likes tea" "u1" 7)],
        sets := [(searchKey "u1", ["aaa", "bbb"])] },
    memories := [Memory.mk "ccc" "fallback tea" "u1" 3] }

/-- Three memories for user u1 written through add-memory at strictly
increasing clock values 1, 2, 3. -/
def c5State : ServerState :=
  (addMemory
    ((addMemory
      ((addMemory initialState [] ⟨"tea one", some "u1"⟩ [1] 1).1)
      [] ⟨"tea two", some "u1"⟩ [2] 2).1)
    [] ⟨"tea three", some "u1"⟩ [1, 2] 3).1

/-- Fifteen matching memories at timestamps 0..14. -/
def c6List : List Memory := (List.range 15).map fun k => Memory.mk "i" "tea" "u1" k

/-- One memory for user u1 written through the public add-memory operation. -/
def c9State : ServerState := (addMemory initialState [] ⟨"likes tea", some "u1"⟩ [1, 2] 5).1

/-! ## Generic helper lemmas: strings, association lists, substring containment -/

theorem strEq_of_data {a b : String} (h : a.data = b.data) : a = b :=
  congrArg String.mk h

theorem strAppend_left_cancel {p a b : String} (h : p ++ a = p ++ b) : a = b := by
  apply strEq_of_data
  have hd := congrArg String.data h
  simp only [String.data_append] at hd
  exact List.append_cancel_left hd

theorem memKey_inj_id {u i j : String} (h : memKey u i = memKey u j) : i = j :=
  strAppend_left_cancel (p := "memory:" ++ u ++ ":") h

theorem isInfix_append_left {a b c : List Char} (h : a <:+: b) : a <:+: b ++ c := by
  obtain ⟨s, t, rfl⟩ := h
  exact ⟨s, t ++ c, by simp⟩

theorem isInfix_append_right {a b c : List Char} (h : a <:+: c) : a <:+: b ++ c := by
  obtain ⟨s, t, rfl⟩ := h
  exact ⟨b ++ s, t, by simp⟩

theorem isSuffix_isInfix {a b : List Char} (h : a <:+ b) : a <:+: b := by
  obtain ⟨s, rfl⟩ := h
  exact ⟨s, [], by simp⟩

theorem jsIncludes_iff {hay needle : String} :
    jsIncludes hay needle = true ↔ needle.data <:+: hay.data := by
  simp [jsIncludes]

theorem lookup_assocSet_self {V : Type} (m : List (String × V)) (k : String) (v : V) :
    assocLookup (assocSet m k v) k = some v := by
  induction m with
  | nil => simp [assocSet, assocLookup]
  | cons hd rest ih =>
    obtain ⟨k', v'⟩ := hd
    by_cases h : k' = k
    · subst h
      simp [assocSet, assocLookup]
    · simp [assocSet, assocLookup, h, ih]

theorem lookup_assocSet_ne {V : Type} (m : List (String × V)) {k k' : String} (v : V)
    (h : k' ≠ k) : assocLookup (assocSet m k v) k' = assocLookup m k' := by
  induction m with
  | nil => simp [assocSet, assocLookup, Ne.symm h]
  | cons hd rest ih =>
    obtain ⟨k'', v''⟩ := hd
    by_cases h2 : k'' = k
    · subst h2
      simp [assocSet, assocLookup, h, Ne.symm h]
    · by_cases h3 : k'' = k'
      · subst h3
        simp [assocSet, assocLookup, h2]
      · simp [assocSet, assocLookup, h2, h3, ih]

theorem smembersList_saddList_self (sets : List (String × List String)) (k j : String)
    (h : j ∉ smembersList sets k) :
    smembersList (saddList sets k j) k = smembersList sets k ++ [j] := by
  unfold smembersList at h ⊢
  simp only [saddList]
  rw [if_neg h]
  simp [lookup_assocSet_self]

theorem smembersList_saddList_ne (sets : List (String × List String)) {k k' : String}
    (j : String) (h : k' ≠ k) :
    smembersList (saddList sets k j) k' = smembersList sets k' := by
  unfold smembersList
  simp only [saddList]
  by_cases hm : j ∈ (assocLookup sets k).getD []
  · rw [if_pos hm]
  · rw [if_neg hm, lookup_assocSet_ne _ _ h]

theorem mem_smembersList_saddList {sets : List (String × List String)} {k k' j i : String}
    (h : i ∈ smembersList (saddList sets k j) k') :
    i ∈ smembersList sets k' ∨ (k' = k ∧ i = j) := by
  by_cases hk : k' = k
  · subst hk
    by_cases hm : j ∈ smembersList sets k'
    · simp only [saddList] at h
      unfold smembersList at hm
      rw [if_pos hm] at h
      exact Or.inl h
    · rw [smembersList_saddList_self _ _ _ hm] at h
      rcases List.mem_append.1 h with h1 | h1
      · exact Or.inl h1
      · simp at h1
        exact Or.inr ⟨rfl, h1⟩
  · rw [smembersList_saddList_ne _ _ hk] at h
    exact Or.inl h

/-! ## Lemmas about the primary-path scan -/

theorem scanIds_cons_none {r : Redis} {u i : String} (q : String) {rest : List String}
    {acc : List Memory} (hl : assocLookup r.kv (memKey u i) = none) :
    scanIds r u q (i :: rest) [] acc = scanIds r u q rest [] acc := by
  simp [scanIds, nextFault, hl]

theorem scanIds_cons_junk {r : Redis} {u i : String} (q : String) {rest : List String}
    {acc : List Memory} {v : SerializedRecord} {e : String}
    (hl : assocLookup r.kv (memKey u i) = some v) (hp : jsonParse v = .error e) :
    scanIds r u q (i :: rest) [] acc = (none, []) := by
  simp [scanIds, nextFault, hl, hp]

theorem scanIds_cons_ok_pos {r : Redis} {u q i : String} {rest : List String}
    {acc : List Memory} {v : SerializedRecord} {m : Memory}
    (hl : assocLookup r.kv (memKey u i) = some v) (hp : jsonParse v = .ok m)
    (hm : jsIncludes (jsToLower m.content) q = true) :
    scanIds r u q (i :: rest) [] acc = scanIds r u q rest [] (acc ++ [m]) := by
  simp [scanIds, nextFault, hl, hp, hm]

theorem scanIds_cons_ok_neg {r : Redis} {u q i : String} {rest : List String}
    {acc : List Memory} {v : SerializedRecord} {m : Memory}
    (hl : assocLookup r.kv (memKey u i) = some v) (hp : jsonParse v = .ok m)
    (hm : ¬ jsIncludes (jsToLower m.content) q = true) :
    scanIds r u q (i :: rest) [] acc = scanIds r u q rest [] acc := by
  simp [scanIds, nextFault, hl, hp, hm]

theorem scanIds_congr (r r' : Redis) (u q : String) :
    ∀ (ids : List String) (acc : List Memory),
      (∀ i ∈ ids, assocLookup r'.kv (memKey u i) = assocLookup r.kv (memKey u i)) →
      scanIds r' u q ids [] acc = scanIds r u q ids [] acc
  | [], _, _ => rfl
  | i :: rest, acc, h => by
    have hi : assocLookup r'.kv (memKey u i) = assocLookup r.kv (memKey u i) :=
      h i (List.mem_cons_self i rest)
    have hrest : ∀ i' ∈ rest, assocLookup r'.kv (memKey u i') = assocLookup r.kv (memKey u i') :=
      fun i' hi' => h i' (List.mem_cons_of_mem i hi')
    cases hl : assocLookup r.kv (memKey u i) with
    | none =>
      rw [scanIds_cons_none q (hi.trans hl), scanIds_cons_none q hl]
      exact scanIds_congr r r' u q rest acc hrest
    | some v =>
      cases hp : jsonParse v with
      | error e =>
        rw [scanIds_cons_junk q (hi.trans hl) hp, scanIds_cons_junk q hl hp]
      | ok m =>
        by_cases hm : jsIncludes (jsToLower m.content) q = true
        · rw [scanIds_cons_ok_pos (hi.trans hl) hp hm, scanIds_cons_ok_pos hl hp hm]
          exact scanIds_congr r r' u q rest _ hrest
        · rw [scanIds_cons_ok_neg (hi.trans hl) hp hm, scanIds_cons_ok_neg hl hp hm]
          exact scanIds_congr r r' u q rest acc hrest

theorem scanIds_append (r : Redis) (u q : String) :
    ∀ (xs ys : List String) (acc L : List Memory),
      scanIds r u q xs [] acc = (some L, []) →
      scanIds r u q (xs ++ ys) [] acc = scanIds r u q ys [] L
  | [], ys, acc, L, h => by
    have hacc : acc = L := Option.some.inj (congrArg Prod.fst h)
    rw [List.nil_append, hacc]
  | x :: xs, ys, acc, L, h => by
    rw [List.cons_append]
    cases hl : assocLookup r.kv (memKey u x) with
    | none =>
      rw [scanIds_cons_none q hl] at h
      rw [scanIds_cons_none q hl]
      exact scanIds_append r u q xs ys acc L h
    | some v =>
      cases hp : jsonParse v with
      | error e =>
        rw [scanIds_cons_junk q hl hp] at h
        simp at h
      | ok m =>
        by_cases hm : jsIncludes (jsToLower m.content) q = true
        · rw [scanIds_cons_ok_pos hl hp hm] at h
          rw [scanIds_cons_ok_pos hl hp hm]
          exact scanIds_append r u q xs ys _ L h
        · rw [scanIds_cons_ok_neg hl hp hm] at h
          rw [scanIds_cons_ok_neg hl hp hm]
          exact scanIds_append r u q xs ys acc L h

theorem scanIds_snoc_new (r : Redis) (u q : String) (ids : List String) (j : String)
    (L : List Memory) (v : SerializedRecord) (m : Memory)
    (hscan : scanIds r u q ids [] [] = (some L, []))
    (hv : assocLookup r.kv (memKey u j) = some v) (hp : jsonParse v = .ok m)
    (hmatch : jsIncludes (jsToLower m.content) q = true) :
    scanIds r u q (ids ++ [j]) [] [] = (some (L ++ [m]), []) := by
  rw [scanIds_append r u q ids [j] [] L hscan, scanIds_cons_ok_pos hv hp hmatch]
  rfl

/-! ## Lemmas about match collection and result formatting -/

theorem collectMatches_fault (st : ServerState) (fs : List Bool) (ql u : String) :
    collectMatches st (true :: fs) ql u = (fallbackFilter st.memories u ql, fs) := rfl

theorem collectMatches_scan_ok {st : ServerState} {ql u : String} {L : List Memory}
    (h : scanIds st.redis u ql (smembersOf st.redis u) [] [] = (some L, [])) :
    collectMatches st [] ql u = (L, []) := by
  simp only [collectMatches, nextFault]
  rw [h]
  rfl

theorem collectMatches_scan_fail {st : ServerState} {ql u : String} {fs : List Bool}
    (h : scanIds st.redis u ql (smembersOf st.redis u) [] [] = (none, fs)) :
    collectMatches st [] ql u = (fallbackFilter st.memories u ql, fs) := by
  simp only [collectMatches, nextFault]
  rw [h]
  rfl

theorem searchMemories_state (st : ServerState) (faults : List Bool) (args : SearchArgs) :
    (searchMemories st faults args).1 = st := rfl

theorem searchMemories_response (st : ServerState) (faults : List Bool) (args : SearchArgs) :
    (searchMemories st faults args).2.2 =
      formatSearch args.query
        (collectMatches st faults (jsToLower args.query) (zodDefault args.userId)).1 := rfl

theorem renderFrom_length : ∀ (i : Nat) (l : List Memory), (renderFrom i l).length = l.length
  | _, [] => rfl
  | i, _ :: rest => by simp [renderFrom, renderFrom_length (i + 1) rest]

theorem isInfix_rfl {a : List Char} : a <:+: a := ⟨[], [], by simp⟩

theorem renderFrom_eq_nil {i : Nat} {l : List Memory} (h : renderFrom i l = []) : l = [] := by
  cases l with
  | nil => rfl
  | cons x xs => simp [renderFrom] at h

theorem data_infix_head (p c : String) : c.data <:+: (p ++ c).data := by
  simp only [String.data_append]
  exact isInfix_append_right isInfix_rfl

theorem data_infix_mid (p c s r : String) : c.data <:+: (p ++ c ++ s ++ r).data := by
  simp only [String.data_append]
  exact isInfix_append_left (isInfix_append_left (isInfix_append_right isInfix_rfl))

theorem data_infix_ext (b t : String) {c : List Char} (h : c <:+: t.data) :
    c <:+: (b ++ t).data := by
  simp only [String.data_append]
  exact isInfix_append_right h

theorem content_infix_jsJoin (m : Memory) (l : List Memory) :
    ∀ i : Nat, m ∈ l → m.content.data <:+: (jsJoin "\n\n" (renderFrom i l)).data := by
  induction l with
  | nil =>
    intro i hm
    exact absurd hm (List.not_mem_nil m)
  | cons x rest ih =>
    intro i hm
    rw [renderFrom]
    rcases List.mem_cons.1 hm with rfl | hm'
    · cases hr : renderFrom (i + 1) rest with
      | nil =>
        rw [jsJoin]
        exact data_infix_head _ _
      | cons e es =>
        rw [jsJoin]
        exact data_infix_mid _ _ _ _
    · have hstep := ih (i + 1) hm'
      cases hr : renderFrom (i + 1) rest with
      | nil =>
        rw [renderFrom_eq_nil hr] at hm'
        exact absurd hm' (List.not_mem_nil m)
      | cons e es =>
        rw [jsJoin]
        rw [hr] at hstep
        exact data_infix_ext _ _ hstep

theorem formatSearch_contains (q : String) (l : List Memory) (m : Memory)
    (hm : m ∈ l) (hlen : l.length ≤ 10) :
    jsIncludes (formatSearch q l) m.content = true := by
  have hm' : m ∈ sortMatches l := by
    simpa [sortMatches] using hm
  have hlen' : (sortMatches l).length = l.length := by
    simp [sortMatches]
  have hne : (sortMatches l).length ≠ 0 := by
    rw [hlen']
    exact Nat.ne_of_gt (List.length_pos.2 (List.ne_nil_of_mem hm))
  have hcond : ((sortMatches l).length == 0) = false := by
    simpa using hne
  rw [jsIncludes_iff]
  simp only [formatSearch, hcond, Bool.false_eq_true, if_false]
  rw [List.take_of_length_le (le_of_eq_of_le hlen' hlen)]
  exact data_infix_ext _ _ (content_infix_jsJoin m (sortMatches l) 0 hm')

/-! ## Round-trip lemmas: add-memory followed by search-memories -/

theorem addMemory_primary (st : ServerState) (args : AddArgs) (rands : List (Fin 36))
    (now : Nat) :
    (addMemory st [] args rands now).1 =
      { redis :=
          { kv := assocSet st.redis.kv (memKey (zodDefault args.userId) (genId rands))
              (.ser (genId rands) args.content (zodDefault args.userId) now),
            sets := saddList st.redis.sets (searchKey (zodDefault args.userId)) (genId rands) },
        memories := st.memories } := rfl

theorem addMemory_fallback (st : ServerState) (fs : List Bool) (args : AddArgs)
    (rands : List (Fin 36)) (now : Nat) :
    (addMemory st (true :: fs) args rands now).1 =
      { st with memories := st.memories ++
          [{ id := genId rands, content := args.content, userId := zodDefault args.userId,
             timestamp := now }] } := rfl

theorem add_search_primary (st : ServerState) (content query : String) (u? : Option String)
    (rands : List (Fin 36)) (now : Nat) (L : List Memory)
    (hmatch : jsIncludes (jsToLower content) (jsToLower query) = true)
    (hscan : scanIds st.redis (zodDefault u?) (jsToLower query)
      (smembersOf st.redis (zodDefault u?)) [] [] = (some L, []))
    (hlen : L.length ≤ 9)
    (hfresh : genId rands ∉ smembersOf st.redis (zodDefault u?)) :
    jsIncludes
      (searchMemories (addMemory st [] ⟨content, u?⟩ rands now).1 [] ⟨query, u?⟩).2.2
      content = true := by
  set u := zodDefault u? with hu
  set j := genId rands with hj
  set ql := jsToLower query with hql
  set mem : Memory := { id := j, content := content, userId := u, timestamp := now } with hmem
  rw [searchMemories_response]
  rw [addMemory_primary]
  set st' : ServerState :=
    { redis :=
        { kv := assocSet st.redis.kv (memKey u j) (.ser j content u now),
          sets := saddList st.redis.sets (searchKey u) j },
      memories := st.memories } with hst'
  have hsets : smembersOf st'.redis u = smembersOf st.redis u ++ [j] := by
    simpa [st', smembersOf] using smembersList_saddList_self st.redis.sets (searchKey u) j hfresh
  have hcongr : ∀ i ∈ smembersOf st.redis u,
      assocLookup st'.redis.kv (memKey u i) = assocLookup st.redis.kv (memKey u i) := by
    intro i hi
    have hne : i ≠ j := fun hij => hfresh (hij ▸ hi)
    have hkey : memKey u i ≠ memKey u j := fun hk => hne (memKey_inj_id hk)
    simpa [st'] using lookup_assocSet_ne st.redis.kv (.ser j content u now) hkey
  have hscan' : scanIds st'.redis u ql (smembersOf st.redis u) [] [] = (some L, []) := by
    rw [scanIds_congr st.redis st'.redis u ql (smembersOf st.redis u) [] hcongr]
    exact hscan
  have hvmem : assocLookup st'.redis.kv (memKey u j) = some (.ser j content u now) := by
    simpa [st'] using lookup_assocSet_self st.redis.kv (memKey u j) (.ser j content u now)
  have hfull : scanIds st'.redis u ql (smembersOf st'.redis u) [] [] = (some (L ++ [mem]), []) := by
    rw [hsets]
    exact scanIds_snoc_new st'.redis u ql (smembersOf st.redis u) j L (.ser j content u now)
      mem hscan' hvmem rfl hmatch
  have hcoll : (collectMatches st' [] ql u).1 = L ++ [mem] := by
    rw [collectMatches_scan_ok hfull]
  show jsIncludes (formatSearch query (collectMatches st' [] ql u).1) content = true
  rw [hcoll]
  have hmm : mem ∈ L ++ [mem] := List.mem_append_right L (List.mem_singleton.2 rfl)
  have hl10 : (L ++ [mem]).length ≤ 10 := by
    simp only [List.length_append, List.length_singleton]
    omega
  simpa using formatSearch_contains query (L ++ [mem]) mem hmm hl10

theorem add_search_fallback (st : ServerState) (content query : String) (u? : Option String)
    (rands : List (Fin 36)) (now : Nat)
    (hmatch : jsIncludes (jsToLower content) (jsToLower query) = true)
    (hlen : (fallbackFilter st.memories (zodDefault u?) (jsToLower query)).length ≤ 9) :
    jsIncludes
      (searchMemories (addMemory st [true] ⟨content, u?⟩ rands now).1 [true] ⟨query, u?⟩).2.2
      content = true := by
  set u := zodDefault u? with hu
  set ql := jsToLower query with hql
  set mem : Memory := { id := genId rands, content := content, userId := u, timestamp := now }
    with hmem
  rw [searchMemories_response]
  rw [addMemory_fallback]
  rw [collectMatches_fault]
  have hfilter : fallbackFilter (st.memories ++ [mem]) u ql =
      fallbackFilter st.memories u ql ++ [mem] := by
    unfold fallbackFilter
    rw [List.filter_append]
    congr 1
    simp [hmatch]
  show jsIncludes (formatSearch query (fallbackFilter (st.memories ++ [mem]) u ql)) content = true
  rw [hfilter]
  have hmm : mem ∈ fallbackFilter st.memories u ql ++ [mem] :=
    List.mem_append_right _ (List.mem_singleton.2 rfl)
  have hl10 : (fallbackFilter st.memories u ql ++ [mem]).length ≤ 10 := by
    simp only [List.length_append, List.length_singleton]
    omega
  simpa using formatSearch_contains query _ mem hmm hl10

/-! ## Ownership invariant: keys, index sets and records are userId-scoped -/

theorem colon_sep : ∀ (a b c d : List Char), ':' ∉ c → ':' ∉ d →
    a ++ ':' :: c = b ++ ':' :: d → a = b ∧ c = d
  | [], [], c, d, _, _, h => by simpa using h
  | [], x :: xs, c, d, hc, hd, h => by
    simp only [List.nil_append, List.cons_append, List.cons.injEq] at h
    obtain ⟨rfl, rfl⟩ := h
    exact absurd (List.mem_append_right xs (List.mem_cons_self ':' d)) hc
  | x :: xs, [], c, d, hc, hd, h => by
    simp only [List.nil_append, List.cons_append, List.cons.injEq] at h
    obtain ⟨rfl, rfl⟩ := h
    exact absurd (List.mem_append_right xs (List.mem_cons_self ':' c)) hd
  | x :: xs, y :: ys, c, d, hc, hd, h => by
    simp only [List.cons_append, List.cons.injEq] at h
    obtain ⟨rfl, h2⟩ := h
    obtain ⟨rfl, rfl⟩ := colon_sep xs ys c d hc hd h2
    exact ⟨rfl, rfl⟩

theorem memKey_data (u i : String) :
    (memKey u i).data = "memory:".data ++ (u.data ++ ':' :: i.data) := by
  simp [memKey, String.data_append]

theorem memKey_inj {u x i j : String} (hi : ':' ∉ i.data) (hj : ':' ∉ j.data)
    (h : memKey u i = memKey x j) : u = x ∧ i = j := by
  have hd := congrArg String.data h
  rw [memKey_data, memKey_data] at hd
  have h2 := List.append_cancel_left hd
  obtain ⟨hu, hij⟩ := colon_sep u.data x.data i.data j.data hi hj h2
  exact ⟨strEq_of_data hu, strEq_of_data hij⟩

theorem searchKey_inj {u x : String} (h : searchKey u = searchKey x) : u = x :=
  strAppend_left_cancel (p := "search:") h

theorem base36Char_ne_colon : ∀ d : Fin 36, base36Char d ≠ ':' := by decide

theorem genId_no_colon (ds : List (Fin 36)) : ':' ∉ (genId ds).data := by
  intro hmem
  simp only [genId, jsSubstring, jsRandomToString36] at hmem
  have h1 : ':' ∈ (ds.map base36Char).take 13 := by simpa using hmem
  have h2 : ':' ∈ ds.map base36Char := List.mem_of_mem_take h1
  obtain ⟨d, -, hd⟩ := List.mem_map.1 h2
  exact base36Char_ne_colon d hd

/-- The ownership invariant: every member of a user's index set is a
colon-free token, and any record reachable via that user's index keys is a
well-formed record carrying that very id and userId. -/
def WellScoped (st : ServerState) : Prop :=
  ∀ u i, i ∈ smembersOf st.redis u →
    (':' ∉ i.data) ∧
    ∀ v, assocLookup st.redis.kv (memKey u i) = some v →
      ∃ c t, v = .ser i c u t

theorem wellScoped_initial : WellScoped initialState := by
  intro u i hi
  simp [initialState, smembersOf, smembersList, assocLookup] at hi

theorem wellScoped_memories {r : Redis} {mem mem' : List Memory}
    (h : WellScoped ⟨r, mem⟩) : WellScoped ⟨r, mem'⟩ :=
  fun u i hi => h u i hi

theorem wellScoped_kv_write {kv : List (String × SerializedRecord)}
    {sets : List (String × List String)} {mem : List Memory}
    (h : WellScoped ⟨⟨kv, sets⟩, mem⟩) (x j c : String) (t : Nat)
    (hj : ':' ∉ j.data) (mem' : List Memory) :
    WellScoped ⟨⟨assocSet kv (memKey x j) (.ser j c x t), sets⟩, mem'⟩ := by
  intro u i hi
  have hbase := h u i hi
  refine ⟨hbase.1, fun v hv => ?_⟩
  by_cases hk : memKey u i = memKey x j
  · obtain ⟨rfl, rfl⟩ := memKey_inj hbase.1 hj hk
    rw [hk, lookup_assocSet_self] at hv
    exact ⟨c, t, (Option.some.inj hv).symm⟩
  · rw [lookup_assocSet_ne _ _ hk] at hv
    exact hbase.2 v hv

theorem wellScoped_both_writes {kv : List (String × SerializedRecord)}
    {sets : List (String × List String)} {mem : List Memory}
    (h : WellScoped ⟨⟨kv, sets⟩, mem⟩) (x j c : String) (t : Nat)
    (hj : ':' ∉ j.data) (mem' : List Memory) :
    WellScoped ⟨⟨assocSet kv (memKey x j) (.ser j c x t),
      saddList sets (searchKey x) j⟩, mem'⟩ := by
  have hkv := wellScoped_kv_write h x j c t hj mem'
  intro u i hi
  rcases mem_smembersList_saddList hi with hold | ⟨hku, rfl⟩
  · exact hkv u i hold
  · obtain rfl : u = x := searchKey_inj hku
    refine ⟨hj, fun v hv => ?_⟩
    rw [lookup_assocSet_self] at hv
    exact ⟨c, t, (Option.some.inj hv).symm⟩

theorem addMemory_state_both (st : ServerState) (faults : List Bool) (args : AddArgs)
    (rands : List (Fin 36)) (now : Nat)
    (hf : faults = [] ∨ faults = [false] ∨ ∃ fs, faults = false :: false :: fs) :
    (addMemory st faults args rands now).1 =
      ⟨⟨assocSet st.redis.kv (memKey (zodDefault args.userId) (genId rands))
          (.ser (genId rands) args.content (zodDefault args.userId) now),
        saddList st.redis.sets (searchKey (zodDefault args.userId)) (genId rands)⟩,
       st.memories⟩ := by
  rcases hf with rfl | rfl | ⟨fs, rfl⟩ <;> rfl

theorem addMemory_state_half (st : ServerState) (fs : List Bool) (args : AddArgs)
    (rands : List (Fin 36)) (now : Nat) :
    (addMemory st (false :: true :: fs) args rands now).1 =
      ⟨⟨assocSet st.redis.kv (memKey (zodDefault args.userId) (genId rands))
          (.ser (genId rands) args.content (zodDefault args.userId) now),
        st.redis.sets⟩,
       st.memories ++
         [Memory.mk (genId rands) args.content (zodDefault args.userId) now]⟩ := rfl

theorem wellScoped_add (st : ServerState) (faults : List Bool) (args : AddArgs)
    (rands : List (Fin 36)) (now : Nat) (h : WellScoped st) :
    WellScoped (addMemory st faults args rands now).1 := by
  obtain ⟨⟨kv, sets⟩, mem⟩ := st
  have hjc : ':' ∉ (genId rands).data := genId_no_colon rands
  rcases faults with - | ⟨f1, fs⟩
  · rw [addMemory_state_both _ _ _ _ _ (Or.inl rfl)]
    exact wellScoped_both_writes h _ _ args.content now hjc mem
  · cases f1 with
    | true =>
      rw [addMemory_fallback]
      exact wellScoped_memories h
    | false =>
      rcases fs with - | ⟨f2, fs'⟩
      · rw [addMemory_state_both _ _ _ _ _ (Or.inr (Or.inl rfl))]
        exact wellScoped_both_writes h _ _ args.content now hjc mem
      · cases f2 with
        | true =>
          rw [addMemory_state_half]
          exact wellScoped_kv_write h _ _ args.content now hjc _
        | false =>
          rw [addMemory_state_both _ _ _ _ _ (Or.inr (Or.inr ⟨fs', rfl⟩))]
          exact wellScoped_both_writes h _ _ args.content now hjc mem

theorem wellScoped_reachable (st : ServerState) (h : Reachable st) : WellScoped st := by
  induction h with
  | init => exact wellScoped_initial
  | add faults args randDigits now _ ih => exact wellScoped_add _ faults args randDigits now ih
  | search faults args _ ih => rw [searchMemories_state]; exact ih

theorem scanIdsF_fault {faults fs' : List Bool} (r : Redis) (u q i : String)
    (rest : List String) (acc : List Memory) (hf : nextFault faults = (true, fs')) :
    scanIds r u q (i :: rest) faults acc = (none, fs') := by
  simp [scanIds, hf]

theorem scanIdsF_skip {faults fs' : List Bool} {r : Redis} {u i : String} (q : String)
    {rest : List String} {acc : List Memory} (hf : nextFault faults = (false, fs'))
    (hl : assocLookup r.kv (memKey u i) = none) :
    scanIds r u q (i :: rest) faults acc = scanIds r u q rest fs' acc := by
  simp [scanIds, hf, hl]

theorem scanIdsF_junk {faults fs' : List Bool} {r : Redis} {u i : String} (q : String)
    {rest : List String} {acc : List Memory} {v : SerializedRecord} {e : String}
    (hf : nextFault faults = (false, fs'))
    (hl : assocLookup r.kv (memKey u i) = some v) (hp : jsonParse v = .error e) :
    scanIds r u q (i :: rest) faults acc = (none, fs') := by
  simp [scanIds, hf, hl, hp]

theorem scanIdsF_ok_pos {faults fs' : List Bool} {r : Redis} {u q i : String}
    {rest : List String} {acc : List Memory} {v : SerializedRecord} {m : Memory}
    (hf : nextFault faults = (false, fs'))
    (hl : assocLookup r.kv (memKey u i) = some v) (hp : jsonParse v = .ok m)
    (hm : jsIncludes (jsToLower m.content) q = true) :
    scanIds r u q (i :: rest) faults acc = scanIds r u q rest fs' (acc ++ [m]) := by
  simp [scanIds, hf, hl, hp, hm]

theorem scanIdsF_ok_neg {faults fs' : List Bool} {r : Redis} {u q i : String}
    {rest : List String} {acc : List Memory} {v : SerializedRecord} {m : Memory}
    (hf : nextFault faults = (false, fs'))
    (hl : assocLookup r.kv (memKey u i) = some v) (hp : jsonParse v = .ok m)
    (hm : ¬ jsIncludes (jsToLower m.content) q = true) :
    scanIds r u q (i :: rest) faults acc = scanIds r u q rest fs' acc := by
  simp [scanIds, hf, hl, hp, hm]

theorem collectMatchesF_fault {faults fs' : List Bool} (st : ServerState) (ql u : String)
    (hf : nextFault faults = (true, fs')) :
    collectMatches st faults ql u = (fallbackFilter st.memories u ql, fs') := by
  simp [collectMatches, hf]

theorem collectMatchesF_ok {faults fs' fs'' : List Bool} {st : ServerState} {ql u : String}
    {ms : List Memory} (hf : nextFault faults = (false, fs'))
    (hsc : scanIds st.redis u ql (smembersOf st.redis u) fs' [] = (some ms, fs'')) :
    collectMatches st faults ql u = (ms, fs'') := by
  simp only [collectMatches, hf]
  rw [hsc]
  rfl

theorem collectMatchesF_fail {faults fs' fs'' : List Bool} {st : ServerState} {ql u : String}
    (hf : nextFault faults = (false, fs'))
    (hsc : scanIds st.redis u ql (smembersOf st.redis u) fs' [] = (none, fs'')) :
    collectMatches st faults ql u = (fallbackFilter st.memories u ql, fs'') := by
  simp only [collectMatches, hf]
  rw [hsc]
  rfl

theorem scanIds_scoped (r : Redis) (u q : String)
    (hws : ∀ i, i ∈ smembersOf r u → ∀ v, assocLookup r.kv (memKey u i) = some v →
      ∃ c t, v = .ser i c u t) :
    ∀ (ids : List String) (faults : List Bool) (acc : List Memory)
      (L : List Memory) (fs : List Bool),
      (∀ i ∈ ids, i ∈ smembersOf r u) → (∀ m ∈ acc, m.userId = u) →
      scanIds r u q ids faults acc = (some L, fs) → ∀ m ∈ L, m.userId = u
  | [], faults, acc, L, fs, _, hacc, h => by
    have : acc = L := Option.some.inj (congrArg Prod.fst h)
    exact this ▸ hacc
  | i :: rest, faults, acc, L, fs, hids, hacc, h => by
    have hi : i ∈ smembersOf r u := hids i (List.mem_cons_self i rest)
    have hrest : ∀ i' ∈ rest, i' ∈ smembersOf r u :=
      fun i' hi' => hids i' (List.mem_cons_of_mem i hi')
    rcases hnf : nextFault faults with ⟨f, fs'⟩
    cases f with
    | true =>
      rw [scanIdsF_fault r u q i rest acc hnf] at h
      simp at h
    | false =>
      cases hl : assocLookup r.kv (memKey u i) with
      | none =>
        rw [scanIdsF_skip q hnf hl] at h
        exact scanIds_scoped r u q hws rest fs' acc L fs hrest hacc h
      | some v =>
        obtain ⟨c, t, rfl⟩ := hws i hi v hl
        by_cases hm : jsIncludes (jsToLower (Memory.mk i c u t).content) q = true
        · rw [scanIdsF_ok_pos hnf hl rfl hm] at h
          refine scanIds_scoped r u q hws rest fs' _ L fs hrest ?_ h
          intro m hmem
          rcases List.mem_append.1 hmem with hmem | hmem
          · exact hacc m hmem
          · simp at hmem
            rw [hmem]
        · rw [scanIdsF_ok_neg hnf hl rfl hm] at h
          exact scanIds_scoped r u q hws rest fs' acc L fs hrest hacc h

theorem fallbackFilter_scoped (memories : List Memory) (u ql : String) :
    ∀ m ∈ fallbackFilter memories u ql, m.userId = u := by
  intro m hm
  unfold fallbackFilter at hm
  simp only [List.mem_filter, Bool.and_eq_true, beq_iff_eq] at hm
  exact hm.2.1

theorem collectMatches_scoped (st : ServerState) (faults : List Bool) (ql u : String)
    (hws : WellScoped st) :
    ∀ m ∈ (collectMatches st faults ql u).1, m.userId = u := by
  intro m hm
  rcases hnf : nextFault faults with ⟨f, fs'⟩
  cases f with
  | true =>
    rw [collectMatchesF_fault st ql u hnf] at hm
    exact fallbackFilter_scoped st.memories u ql m hm
  | false =>
    rcases hsc : scanIds st.redis u ql (smembersOf st.redis u) fs' [] with ⟨o, fs''⟩
    cases o with
    | none =>
      rw [collectMatchesF_fail hnf hsc] at hm
      exact fallbackFilter_scoped st.memories u ql m hm
    | some ms =>
      rw [collectMatchesF_ok hnf hsc] at hm
      exact scanIds_scoped st.redis u ql (fun i hi => (hws u i hi).2)
        (smembersOf st.redis u) fs' [] ms fs'' (fun i hi => hi) (by simp) hsc m hm

/-! ## Claim theorems -/

/-- C1 (counterexample): the round trip fails as universally stated.  From a
server state holding ten matching "tea…" memories for user u1 at the same
clock value, adding "likes tea" (a valid content whose lowercase form
contains the lowercase query "tea") and immediately searching "tea" for the
same user yields a digest that reports all 11 matches in its header but does
not contain "likes tea": the new memory is truncated out of the top-10
rendering. -/
theorem c1_counterexample :
    jsIncludes (jsToLower "likes tea") (jsToLower "tea") = true ∧
    jsIncludes
      (searchMemories (addMemory c1Prior [true] ⟨"likes tea", some "u1"⟩ [1, 2] 5).1
        [true] ⟨"tea", some "u1"⟩).2.2 "likes tea" = false ∧
    jsIncludes
      (searchMemories (addMemory c1Prior [true] ⟨"likes tea", some "u1"⟩ [1, 2] 5).1
        [true] ⟨"tea", some "u1"⟩).2.2 "Found 11 matching memories" = true := by
  decide

/-- C1 (amended): for every valid content and userId, add-memory followed
immediately by search-memories with the same userId and a query that is a
case-insensitive substring of the content returns a digest containing that
content, provided at most 9 of the user's already-stored memories match the
query on the store that serves the call — both on the Primary Store path
(empty fault schedule; the generated id must be new to the user's index
set) and under forced Primary Store failure (fallback path). -/
theorem c1_add_then_search :
    (∀ (st : ServerState) (content query : String) (u? : Option String)
       (rands : List (Fin 36)) (now : Nat) (L : List Memory),
       jsIncludes (jsToLower content) (jsToLower query) = true →
       scanIds st.redis (zodDefault u?) (jsToLower query)
         (smembersOf st.redis (zodDefault u?)) [] [] = (some L, []) →
       L.length ≤ 9 →
       genId rands ∉ smembersOf st.redis (zodDefault u?) →
       jsIncludes
         (searchMemories (addMemory st [] ⟨content, u?⟩ rands now).1 []
           ⟨query, u?⟩).2.2 content = true) ∧
    (∀ (st : ServerState) (content query : String) (u? : Option String)
       (rands : List (Fin 36)) (now : Nat),
       jsIncludes (jsToLower content) (jsToLower query) = true →
       (fallbackFilter st.memories (zodDefault u?) (jsToLower query)).length ≤ 9 →
       jsIncludes
         (searchMemories (addMemory st [true] ⟨content, u?⟩ rands now).1 [true]
           ⟨query, u?⟩).2.2 content = true) :=
  ⟨fun st content query u? rands now L h1 h2 h3 h4 =>
     add_search_primary st content query u? rands now L h1 h2 h3 h4,
   fun st content query u? rands now h1 h2 =>
     add_search_fallback st content query u? rands now h1 h2⟩

/-- C1 (witness): the amended round trip at a concrete instance: "likes
tea" written for u1 from the fresh state is found by the case-insensitive
query "Tea", on the primary path and under forced failure. -/
theorem c1_witness :
    jsIncludes
      (searchMemories (addMemory initialState [] ⟨"likes tea", some "u1"⟩ [1, 2] 5).1 []
        ⟨"Tea", some "u1"⟩).2.2 "likes tea" = true ∧
    jsIncludes
      (searchMemories (addMemory initialState [true] ⟨"likes tea", some "u1"⟩ [1, 2] 5).1
        [true] ⟨"Tea", some "u1"⟩).2.2 "likes tea" = true :=
  ⟨c1_add_then_search.1 initialState "likes tea" "Tea" (some "u1") [1, 2] 5 []
     (by decide) (by decide) (by decide) (by decide),
   c1_add_then_search.2 initialState "likes tea" "Tea" (some "u1") [1, 2] 5
     (by decide) (by decide)⟩

/-- C2 (counterexample): a stored record that fails to deserialize is not
skipped: in `c2State` the Primary Store holds a junk record ahead of a
well-formed record "likes tea" matching the query, yet the search is served
by the Fallback Store — the digest shows the fallback memory and not the
primary one, so the scan did not continue past the junk record. -/
theorem c2_counterexample :
    (searchMemories c2State [] ⟨"tea", some "u1"⟩).2.2 =
      "Found 1 matching memories for \"tea\":\n\n1. [1970-01-01] fallback tea" ∧
    jsIncludes (searchMemories c2State [] ⟨"tea", some "u1"⟩).2.2 "likes tea" = false := by
  decide

/-- C2 (amended): during a Primary Store search, an index entry whose
record is absent is skipped and the scan continues; but a stored record
that fails to deserialize throws inside the scan, which aborts the primary
path, and the entire search is then served by the Fallback Store filter —
no error is raised to the caller in either case. -/
theorem c2_junk_aborts_to_fallback :
    (∀ (r : Redis) (u i q : String) (rest : List String) (acc : List Memory)
       (faults fs' : List Bool),
       nextFault faults = (false, fs') →
       assocLookup r.kv (memKey u i) = none →
       scanIds r u q (i :: rest) faults acc = scanIds r u q rest fs' acc) ∧
    (∀ (r : Redis) (u i q raw : String) (rest : List String) (acc : List Memory)
       (faults fs' : List Bool),
       nextFault faults = (false, fs') →
       assocLookup r.kv (memKey u i) = some (.junk raw) →
       scanIds r u q (i :: rest) faults acc = (none, fs')) ∧
    (∀ (st : ServerState) (args : SearchArgs) (faults fs' fs'' : List Bool),
       nextFault faults = (false, fs') →
       scanIds st.redis (zodDefault args.userId) (jsToLower args.query)
         (smembersOf st.redis (zodDefault args.userId)) fs' [] = (none, fs'') →
       (searchMemories st faults args).2.2 =
         formatSearch args.query
           (fallbackFilter st.memories (zodDefault args.userId) (jsToLower args.query))) :=
  ⟨fun r u i q rest acc faults fs' hf hl => scanIdsF_skip q hf hl,
   fun r u i q raw rest acc faults fs' hf hl => scanIdsF_junk q hf hl rfl,
   fun st args faults fs' fs'' hf hsc => by
     rw [searchMemories_response, collectMatchesF_fail hf hsc]⟩

/-- C2 (witness): the amended behaviour at concrete inputs over `c2State`:
a dangling id "zzz" is skipped; the junk record at id "aaa" aborts the
scan; and with that abort the whole search renders the fallback filter. -/
theorem c2_witness :
    scanIds c2State.redis "u1" "tea" ["zzz", "bbb"] [] [] =
      scanIds c2State.redis "u1" "tea" ["bbb"] [] [] ∧
    scanIds c2State.redis "u1" "tea" ["aaa", "bbb"] [] [] = (none, []) ∧
    (searchMemories c2State [] ⟨"tea", some "u1"⟩).2.2 =
      formatSearch "tea" (fallbackFilter c2State.memories "u1" (jsToLower "tea")) :=
  ⟨c2_junk_aborts_to_fallback.1 c2State.redis "u1" "zzz" "tea" ["bbb"] [] [] []
     (by decide) (by decide),
   c2_junk_aborts_to_fallback.2.1 c2State.redis "u1" "aaa" "tea" "not json" ["bbb"] [] [] []
     (by decide) (by decide),
   c2_junk_aborts_to_fallback.2.2 c2State ⟨"tea", some "u1"⟩ [] [] []
     (by decide) (by decide)⟩

/-- C3 (counterexample): an add-memory call in which the record write
succeeds and the index-set add fails mutates both stores in the same call —
the Primary Store keeps the half-written record key while the memory is
also appended to the Fallback Store — so the mutation is not mutually
exclusive. -/
theorem c3_counterexample :
    ¬ ((addMemory initialState [false, true] ⟨"likes tea", some "u1"⟩ [1] 5).1.redis =
         initialState.redis ∨
       (addMemory initialState [false, true] ⟨"likes tea", some "u1"⟩ [1] 5).1.memories =
         initialState.memories) := by
  decide

/-- C3 (amended): every add-memory call lands in exactly one of three
shapes: only the Fallback Store is appended to (the record write throws);
only the Primary Store is mutated (record write and index-set add both
succeed); or — when the record write succeeds and the index-set add throws
— the Primary Store keeps the half-written record and the memory is also
appended to the Fallback Store, mutating both stores in one call. -/
theorem c3_mutation_shapes (st : ServerState) (faults : List Bool) (args : AddArgs)
    (rands : List (Fin 36)) (now : Nat) :
    ((addMemory st faults args rands now).1.redis = st.redis ∧
      (addMemory st faults args rands now).1.memories = st.memories ++
        [Memory.mk (genId rands) args.content (zodDefault args.userId) now]) ∨
    ((addMemory st faults args rands now).1.memories = st.memories ∧
      (addMemory st faults args rands now).1.redis =
        ⟨assocSet st.redis.kv (memKey (zodDefault args.userId) (genId rands))
           (.ser (genId rands) args.content (zodDefault args.userId) now),
         saddList st.redis.sets (searchKey (zodDefault args.userId)) (genId rands)⟩) ∨
    ((addMemory st faults args rands now).1.memories = st.memories ++
        [Memory.mk (genId rands) args.content (zodDefault args.userId) now] ∧
      (addMemory st faults args rands now).1.redis =
        ⟨assocSet st.redis.kv (memKey (zodDefault args.userId) (genId rands))
           (.ser (genId rands) args.content (zodDefault args.userId) now),
         st.redis.sets⟩) := by
  rcases faults with - | ⟨f1, fs⟩
  · rw [addMemory_state_both st [] args rands now (Or.inl rfl)]
    exact Or.inr (Or.inl ⟨rfl, rfl⟩)
  · cases f1 with
    | true =>
      rw [addMemory_fallback]
      exact Or.inl ⟨rfl, rfl⟩
    | false =>
      rcases fs with - | ⟨f2, fs'⟩
      · rw [addMemory_state_both st [false] args rands now (Or.inr (Or.inl rfl))]
        exact Or.inr (Or.inl ⟨rfl, rfl⟩)
      · cases f2 with
        | true =>
          rw [addMemory_state_half]
          exact Or.inr (Or.inr ⟨rfl, rfl⟩)
        | false =>
          rw [addMemory_state_both st (false :: false :: fs') args rands now
            (Or.inr (Or.inr ⟨fs', rfl⟩))]
          exact Or.inr (Or.inl ⟨rfl, rfl⟩)

/-- C4 (counterexample): an add-memory call with an explicitly empty userId
is not defaulted: the record lands under the empty-string userId (key
`memory::…`, userId field "") and a subsequent search under the default
userId does not find it. -/
theorem c4_counterexample :
    (addMemory initialState [] ⟨"likes tea", some ""⟩ [1, 2] 5).1.redis.kv =
      [(memKey "" (genId [1, 2]), .ser (genId [1, 2]) "likes tea" "" 5)] ∧
    (searchMemories (addMemory initialState [] ⟨"likes tea", some ""⟩ [1, 2] 5).1 []
      ⟨"tea", none⟩).2.2 = "No memories found for query: \"tea\"" := by
  decide

/-- C4 (amended): when userId is absent the memory is created under the
fixed default userId constant "quinn_may" — the record is stored under the
default-scoped key with the default userId field — and a subsequent
search-memories call with absent userId whose query matches the content
returns a digest containing it.  (An explicitly empty userId is kept as the
empty string: zod's `.default` substitutes only absent fields.) -/
theorem c4_absent_userId_defaults (content query : String) (rands : List (Fin 36))
    (now : Nat) (hmatch : jsIncludes (jsToLower content) (jsToLower query) = true) :
    (addMemory initialState [] ⟨content, none⟩ rands now).1.redis.kv =
      [(memKey defaultUserId (genId rands), .ser (genId rands) content defaultUserId now)] ∧
    jsIncludes
      (searchMemories (addMemory initialState [] ⟨content, none⟩ rands now).1 []
        ⟨query, none⟩).2.2 content = true := by
  constructor
  · rfl
  · refine add_search_primary initialState content query none rands now [] hmatch rfl
      (by decide) ?_
    intro h
    simp [initialState, smembersOf, smembersList, assocLookup] at h

/-- C4 (witness): the amended claim at a concrete instance: "likes tea"
added with absent userId lands under quinn_may and is found by the
case-insensitive query "TEA" with absent userId. -/
theorem c4_witness :
    (addMemory initialState [] ⟨"likes tea", none⟩ [1, 2] 5).1.redis.kv =
      [(memKey defaultUserId (genId [1, 2]),
        .ser (genId [1, 2]) "likes tea" defaultUserId 5)] ∧
    jsIncludes
      (searchMemories (addMemory initialState [] ⟨"likes tea", none⟩ [1, 2] 5).1 []
        ⟨"TEA", none⟩).2.2 "likes tea" = true :=
  c4_absent_userId_defaults "likes tea" "TEA" [1, 2] 5 (by decide)

/-- C5 (confirmed): search-memories orders matches by timestamp descending
with ties broken by original order (the sort is stable): the sorted match
list is pairwise ordered under the comparator's preorder; any pair already
in comparator order in the collected list — in particular any
equal-timestamp pair in storage order — stays in that order after sorting;
and concretely, three memories written through add-memory at clock values
1 < 2 < 3 are rendered most-recent-first. -/
theorem c5_sort_desc_stable :
    (∀ l : List Memory, List.Sorted tsDesc (sortMatches l)) ∧
    (∀ (l : List Memory) (a b : Memory), tsDesc a b → List.Sublist [a, b] l →
      List.Sublist [a, b] (sortMatches l)) ∧
    (searchMemories c5State [] ⟨"tea", some "u1"⟩).2.2 =
      "Found 3 matching memories for \"tea\":\n\n1. [1970-01-01] tea three\n\n2. [1970-01-01] tea two\n\n3. [1970-01-01] tea one" :=
  ⟨fun l => List.sorted_insertionSort tsDesc l,
   fun l a b hab h => List.pair_sublist_insertionSort hab h,
   by decide⟩

/-- C5 (witness): the stability part at a concrete equal-timestamp pair in
storage order, plus sortedness of its sorted form. -/
theorem c5_witness :
    List.Sorted tsDesc (sortMatches [Memory.mk "a" "x" "u" 7, Memory.mk "b" "y" "u" 7]) ∧
    List.Sublist [Memory.mk "a" "x" "u" 7, Memory.mk "b" "y" "u" 7]
      (sortMatches [Memory.mk "a" "x" "u" 7, Memory.mk "b" "y" "u" 7]) :=
  ⟨c5_sort_desc_stable.1 [Memory.mk "a" "x" "u" 7, Memory.mk "b" "y" "u" 7],
   c5_sort_desc_stable.2.1 [Memory.mk "a" "x" "u" 7, Memory.mk "b" "y" "u" 7]
     (Memory.mk "a" "x" "u" 7) (Memory.mk "b" "y" "u" 7) (by decide)
     (List.Sublist.refl _)⟩

/-- C6 (confirmed): when more than 10 memories match, the digest is the
header reporting the full pre-truncation match count followed by the
rendering of exactly the first 10 sorted matches (each a 1-based
`<index>. [<date>] <content>` line, joined by blank lines): the rendered
entry list has length exactly 10. -/
theorem c6_truncation (q : String) (l : List Memory) (h : 10 < l.length) :
    formatSearch q l =
      "Found " ++ toString l.length ++ " matching memories for \"" ++ q ++ "\":\n\n" ++
        jsJoin "\n\n" (renderFrom 0 ((sortMatches l).take 10)) ∧
    (renderFrom 0 ((sortMatches l).take 10)).length = 10 := by
  have hlen : (sortMatches l).length = l.length := by
    simp [sortMatches]
  have hne : (l.length == 0) = false := by
    simp only [beq_eq_false_iff_ne, ne_eq]
    omega
  constructor
  · simp only [formatSearch, hlen, hne, Bool.false_eq_true, if_false]
  · rw [renderFrom_length, List.length_take, hlen]
    omega

/-- C6 (witness): fifteen matching memories render ten entries while the
header reports 15. -/
theorem c6_witness :
    formatSearch "tea" c6List =
      "Found " ++ toString c6List.length ++ " matching memories for \"tea\":\n\n" ++
        jsJoin "\n\n" (renderFrom 0 ((sortMatches c6List).take 10)) ∧
    (renderFrom 0 ((sortMatches c6List).take 10)).length = 10 :=
  c6_truncation "tea" c6List (by decide)

/-- C7 (confirmed): every search-memories call whose collected match list
is empty — on whichever store path served it — returns the fixed "no
memories found" message naming the query. -/
theorem c7_no_match_message (st : ServerState) (faults : List Bool) (args : SearchArgs)
    (h : (collectMatches st faults (jsToLower args.query) (zodDefault args.userId)).1 = []) :
    (searchMemories st faults args).2.2 =
      "No memories found for query: \"" ++ args.query ++ "\"" := by
  rw [searchMemories_response, h]
  rfl

/-- C7 (witness): a search on the fresh state matches nothing and returns
the fixed message. -/
theorem c7_witness :
    (searchMemories initialState [] ⟨"quantum", some "u1"⟩).2.2 =
      "No memories found for query: \"quantum\"" :=
  c7_no_match_message initialState [] ⟨"quantum", some "u1"⟩ (by decide)

/-- C8 (counterexample): the generated identifier is not always at least 10
characters: when `Math.random()` draws 0.5, `toString(36)` prints "0.i" and
`substring(2, 15)` yields the one-character id "i". -/
theorem c8_counterexample : ¬ 10 ≤ (genId [(18 : Fin 36)]).length := by
  decide

/-- C8 (amended): every identifier generated by add-memory is a base-36
token of at most 13 characters — exactly 13 whenever the drawn value's
printed base-36 expansion has at least 13 fraction digits, but possibly
shorter (even shorter than 10) when the expansion terminates early. -/
theorem c8_id_length (ds : List (Fin 36)) :
    (genId ds).length ≤ 13 ∧ (13 ≤ ds.length → (genId ds).length = 13) := by
  have hdata : (genId ds).length = min 13 ds.length := by
    simp [genId, jsSubstring, jsRandomToString36, String.length]
  constructor
  · rw [hdata]
    omega
  · intro h
    rw [hdata]
    omega

/-- C8 (witness): a 14-digit expansion yields an id of exactly 13
characters. -/
theorem c8_witness : (genId (List.replicate 14 (0 : Fin 36))).length = 13 :=
  (c8_id_length (List.replicate 14 0)).2 (by decide)

/-- C9 (confirmed): search-memories only ever returns memories scoped to
the requested userId.  Every state reachable through the public contract is
well-scoped (index members are colon-free and records reachable through a
user's keys carry that userId), and on any well-scoped state every memory
collected by a search — on the Primary Store path via the invariant, on the
Fallback Store path via the explicit equality filter — has exactly the
requested userId. -/
theorem c9_user_scoping :
    (∀ st : ServerState, Reachable st → WellScoped st) ∧
    (∀ (st : ServerState) (faults : List Bool) (args : SearchArgs),
      WellScoped st →
      ∀ m ∈ (collectMatches st faults (jsToLower args.query) (zodDefault args.userId)).1,
        m.userId = zodDefault args.userId) :=
  ⟨wellScoped_reachable,
   fun st faults args hws =>
     collectMatches_scoped st faults (jsToLower args.query) (zodDefault args.userId) hws⟩

/-- C9 (witness): on the reachable state with one memory for u1, the
memory collected by the search for "tea" carries userId u1. -/
theorem c9_witness :
    (Memory.mk (genId [1, 2]) "likes tea" "u1" 5).userId = zodDefault (some "u1") :=
  c9_user_scoping.2 c9State [] ⟨"tea", some "u1"⟩
    (c9_user_scoping.1 c9State
      (Reachable.add [] ⟨"likes tea", some "u1"⟩ [1, 2] 5 Reachable.init))
    (Memory.mk (genId [1, 2]) "likes tea" "u1" 5) (by decide)

/-- C10 (confirmed): search-memories is read-only — it returns the server
state unchanged on every path and for every fault schedule — while
add-memory does mutate the state (witnessed on the fresh state). -/
theorem c10_search_read_only :
    (∀ (st : ServerState) (faults : List Bool) (args : SearchArgs),
      (searchMemories st faults args).1 = st) ∧
    (addMemory initialState [] ⟨"likes tea", some "u1"⟩ [(1 : Fin 36)] 5).1 ≠
      initialState :=
  ⟨searchMemories_state, by decide⟩
